import Mathlib

/-!
Verification of the skill-authoring command-line utilities:
`init_skill.py` (scaffolder), `package_skill.py` (packager) and
`check.py` (external semver-checker wrapper).

The filesystem is modelled as an association list from paths (lists of
name components) to entries; each script becomes a pure function that
takes the current filesystem plus explicit inputs (including injected
I/O fault points, since the scripts catch I/O exceptions) and returns
the new filesystem together with the script's Python return value
(`Option Path`, `None` being Python's `None`).  The validator
`quick_validate.validate_skill` is imported by the packager from a file
that is not part of the sources; the packager only consumes its
`(bool, message)` result, so it is passed in as an arbitrary function
argument.
-/

set_option autoImplicit false

namespace Skill

/-- A filesystem path, as its list of name components (already resolved,
mirroring `Path(...).resolve()`). -/
abbrev Path := List String

/-- A filesystem entry: a regular text file with its content, a zip
archive file (a `.skill` file, stored with its entry list, each entry an
archive-internal path plus the stored bytes), or a directory. -/
inductive Entry : Type where
  | file (content : String)
  | zipFile (entries : List (Path × String))
  | dir
deriving Repr, DecidableEq

/-- `os.path.isfile`: both plain files and archive files are regular files. -/
def Entry.isRegularFile : Entry → Bool
  | .file _ => true
  | .zipFile _ => true
  | .dir => false

/-- The bytes read when a regular file is stored into an archive. -/
def Entry.contentOf : Entry → String
  | .file c => c
  | .zipFile _ => ""
  | .dir => ""

/-- A filesystem: an association list from paths to entries.  The first
entry for a path is the authoritative one. -/
structure FS : Type where
  entries : List (Path × Entry)
deriving Repr, DecidableEq

/-- First-match lookup in an association list of filesystem entries. -/
def lookupPath : List (Path × Entry) → Path → Option Entry
  | [], _ => none
  | (q, e) :: rest, p => if q = p then some e else lookupPath rest p

/-- Look up the entry stored at a path. -/
def FS.find (fs : FS) (p : Path) : Option Entry :=
  lookupPath fs.entries p

/-- `Path.exists()`. -/
def FS.pathExists (fs : FS) (p : Path) : Bool :=
  (fs.find p).isSome

/-- `Path.is_dir()`. -/
def FS.isDir (fs : FS) (p : Path) : Bool :=
  fs.find p = some .dir

/-- `Path.is_file()`. -/
def FS.isFile (fs : FS) (p : Path) : Bool :=
  match fs.find p with
  | some e => e.isRegularFile
  | none => false

/-- Write an entry at a path, replacing whatever was there. -/
def FS.set (fs : FS) (p : Path) (e : Entry) : FS :=
  ⟨(p, e) :: fs.entries.filter (fun x => decide (x.1 ≠ p))⟩

/-- `root` is a prefix of `p` (so `p` denotes `root` itself or something
inside the directory `root`). -/
def prefOf : Path → Path → Bool
  | [], _ => true
  | _ :: _, [] => false
  | a :: r, b :: s => decide (a = b) && prefOf r s

/-- The nonempty initial segments of a path, shortest first; the path
itself is the last element. -/
def pathSegs (p : Path) : List Path :=
  (List.range p.length).map (fun n => p.take (n + 1))

/-- Create every directory in `L` (in order) that does not already
exist, like `mkdir(parents=True, exist_ok=True)` walking the ancestors. -/
def mkdirList (fs : FS) (L : List Path) : FS :=
  L.foldl (fun acc q => if acc.pathExists q then acc else acc.set q .dir) fs

/-- `Path.mkdir(parents=True, exist_ok=True)`: create the directory and
any missing ancestors. -/
def FS.mkdirParents (fs : FS) (p : Path) : FS :=
  mkdirList fs (pathSegs p)

/-! ### `init_skill.py` -/

/-- `SKILL_TEMPLATE.format(skill_name=..., skill_title=...)`: the
description-file template of `init_skill.py` with the two placeholders
substituted. -/
def SKILL_TEMPLATE (skill_name skill_title : String) : String :=
  "---\nname: " ++ skill_name ++
  "\ndescription: [TODO: Complete and informative explanation of what the skill does and when to use it.]\n---\n\n# "
  ++ skill_title ++
  "\n\n## Overview\n[TODO: 1-2 sentences explaining what this skill enables]\n\n## Structuring This Skill\n[TODO: Choose the structure that best fits this skill's purpose. Patterns: Workflow-Based, Task-Based, Reference/Guidelines, Capabilities-Based.]\n\n## Resources\nThis skill includes example resource directories:\n\n### scripts/\nExecutable code for specific operations.\n\n### references/\nDocumentation intended to be loaded into context as needed.\n\n### assets/\nFiles used in the output Claude produces.\n"

/-- `EXAMPLE_SCRIPT.format(skill_name=...)`: the placeholder helper
script written into `scripts/example.py`. -/
def EXAMPLE_SCRIPT (skill_name : String) : String :=
  "#!/usr/bin/env python3\n\"\"\"\nExample helper script for " ++ skill_name ++
  "\n\"\"\"\n\ndef main():\n    print(\"This is an example script for " ++ skill_name ++
  "\")\n\nif __name__ == \"__main__\":\n    main()\n"

/-- `EXAMPLE_REFERENCE.format(skill_title=...)`: the placeholder
reference document written into `references/api_reference.md`. -/
def EXAMPLE_REFERENCE (skill_title : String) : String :=
  "# Reference Documentation for " ++ skill_title ++
  "\n\nThis is a placeholder for detailed reference documentation.\n"

/-- `EXAMPLE_ASSET`: the placeholder asset written into
`assets/example_asset.txt`. -/
def EXAMPLE_ASSET : String :=
  "# Example Asset File\n\nThis placeholder represents where asset files would be stored.\n"

/-- Python `str.capitalize()`: first character upper-cased, the rest
lower-cased. -/
def pyCapitalize (s : String) : String :=
  match s.data with
  | [] => ""
  | c :: cs => String.mk (c.toUpper :: cs.map Char.toLower)

/-- Python `str.split(sep)` for a one-character separator: splits at
every occurrence, keeping empty pieces (`"".split("-") == [""]`). -/
def splitOnChar (sep : Char) : List Char → List (List Char)
  | [] => [[]]
  | c :: cs =>
    match splitOnChar sep cs with
    | [] => if c = sep then [[], [c]] else [[c]]
    | w :: ws => if c = sep then [] :: w :: ws else (c :: w) :: ws

/-- `title_case_skill_name`: convert a hyphenated skill name to Title
Case for display (`" ".join(word.capitalize() for word in
skill_name.split("-"))`). -/
def title_case_skill_name (skill_name : String) : String :=
  String.intercalate " "
    ((splitOnChar '-' skill_name.data).map (fun w => pyCapitalize (String.mk w)))

/-- The textual rendering of a path when it is interpolated into a
printed message (`f"...{skill_dir}"`). -/
def pathStr (p : Path) : String :=
  String.intercalate "/" p

/-- The result of running `init_skill`: the filesystem afterwards, the
function's Python return value (the new directory, or `None`), and the
lines it printed, in order. -/
structure InitResult : Type where
  fs : FS
  result : Option Path
  out : List String
deriving Repr, DecidableEq

/-- `init_skill(skill_name, path)`.  The eight filesystem writes the
function performs are numbered `0`–`7` in program order; `failStep =
some k` makes write `k` raise an exception rendering as `failMsg` (the
script catches these exceptions), `none` means all I/O succeeds. -/
def init_skill (fs : FS) (skill_name : String) (path : Path)
    (failStep : Option Nat) (failMsg : String) : InitResult :=
  let skill_dir := path ++ [skill_name]
  if fs.pathExists skill_dir then
    ⟨fs, none, ["❌ Error: Skill directory already exists: " ++ pathStr skill_dir]⟩
  else if failStep = some 0 then
    ⟨fs, none, ["❌ Error creating directory: " ++ failMsg]⟩
  else
    let fs1 := fs.mkdirParents skill_dir
    let out1 := ["✅ Created skill directory: " ++ pathStr skill_dir]
    if failStep = some 1 then
      ⟨fs1, none, out1 ++ ["❌ Error creating SKILL.md: " ++ failMsg]⟩
    else
      let skill_title := title_case_skill_name skill_name
      let fs2 := fs1.set (skill_dir ++ ["SKILL.md"])
        (.file (SKILL_TEMPLATE skill_name skill_title))
      let out2 := out1 ++ ["✅ Created SKILL.md"]
      if failStep = some 2 then
        ⟨fs2, none, out2 ++ ["❌ Error creating resource directories: " ++ failMsg]⟩
      else
        let fs3 := fs2.set (skill_dir ++ ["scripts"]) .dir
        if failStep = some 3 then
          ⟨fs3, none, out2 ++ ["❌ Error creating resource directories: " ++ failMsg]⟩
        else
          let fs4 := fs3.set (skill_dir ++ ["scripts", "example.py"])
            (.file (EXAMPLE_SCRIPT skill_name))
          if failStep = some 4 then
            ⟨fs4, none, out2 ++ ["❌ Error creating resource directories: " ++ failMsg]⟩
          else
            let fs5 := fs4.set (skill_dir ++ ["references"]) .dir
            if failStep = some 5 then
              ⟨fs5, none, out2 ++ ["❌ Error creating resource directories: " ++ failMsg]⟩
            else
              let fs6 := fs5.set (skill_dir ++ ["references", "api_reference.md"])
                (.file (EXAMPLE_REFERENCE (title_case_skill_name skill_name)))
              if failStep = some 6 then
                ⟨fs6, none, out2 ++ ["❌ Error creating resource directories: " ++ failMsg]⟩
              else
                let fs7 := fs6.set (skill_dir ++ ["assets"]) .dir
                if failStep = some 7 then
                  ⟨fs7, none, out2 ++ ["❌ Error creating resource directories: " ++ failMsg]⟩
                else
                  ⟨fs7.set (skill_dir ++ ["assets", "example_asset.txt"])
                      (.file EXAMPLE_ASSET), some skill_dir,
                    out2 ++ ["✅ Created resource directories with examples",
                      "\n✅ Skill '" ++ skill_name ++ "' initialized successfully at "
                        ++ pathStr skill_dir]⟩

/-- The exit code chosen by each script's `main`: `sys.exit(0)` when the
worker function returned a (truthy) path, `sys.exit(1)` when it
returned `None`. -/
def cli_exit (result : Option Path) : Nat :=
  if result.isSome then 0 else 1

/-! ### `package_skill.py` -/

/-- The files `skill_path.rglob("*")` yields that pass `is_file()`:
every regular-file entry strictly inside the skill directory. -/
def FS.filesUnder (fs : FS) (root : Path) : List (Path × Entry) :=
  fs.entries.filter
    (fun x => prefOf root x.1 && decide (x.1 ≠ root) && x.2.isRegularFile)

/-- `file_path.relative_to(root)`: drop the leading components. -/
def relTo (p root : Path) : Path :=
  p.drop root.length

/-- The entry list the packager writes into the archive: every regular
file under the skill directory, stored under its path relative to the
skill directory's parent, with the file's bytes. -/
def zipEntriesOf (fs : FS) (skill_path : Path) : List (Path × String) :=
  (fs.filesUnder skill_path).map
    (fun x => (relTo x.1 skill_path.dropLast, x.2.contentOf))

/-- The result of running `package_skill`: the filesystem afterwards,
the function's Python return value (the archive path, or `None`), and
the lines it printed, in order. -/
structure PkgResult : Type where
  fs : FS
  result : Option Path
  out : List String
deriving Repr, DecidableEq

/-- `package_skill(skill_path, output_dir)`.  `validate` is
`quick_validate.validate_skill` (imported from outside these sources),
returning Python's `(valid, message)`; `cwd` is `Path.cwd()`;
`zipFault = some e` makes the archive write raise an exception
rendering as `e` (caught by the script's `try`). -/
def package_skill (fs : FS) (validate : FS → Path → Bool × String)
    (skill_path : Path) (output_dir : Option Path) (cwd : Path)
    (zipFault : Option String) : PkgResult :=
  if ¬ fs.pathExists skill_path then
    ⟨fs, none, ["❌ Error: Skill folder not found: " ++ pathStr skill_path]⟩
  else if ¬ fs.isDir skill_path then
    ⟨fs, none, ["❌ Error: Path is not a directory: " ++ pathStr skill_path]⟩
  else
    let v := validate fs skill_path
    if ¬ v.1 then
      ⟨fs, none, ["🔍 Validating skill...",
        "❌ Validation failed: " ++ v.2,
        "   Please fix the validation errors before packaging."]⟩
    else
      let out1 := ["🔍 Validating skill...", "✅ " ++ v.2 ++ "\n"]
      let output_path := match output_dir with
        | some d => d
        | none => cwd
      let fs1 := match output_dir with
        | some d => fs.mkdirParents d
        | none => fs
      let skill_name := skill_path.getLastD ""
      let skill_filename := output_path ++ [skill_name ++ ".skill"]
      match zipFault with
      | some e =>
        ⟨fs1, none, out1 ++ ["❌ Error creating .skill file: " ++ e]⟩
      | none =>
        let entries := zipEntriesOf fs1 skill_path
        ⟨fs1.set skill_filename (.zipFile entries), some skill_filename,
          out1 ++ entries.map (fun x => "  Added: " ++ pathStr x.1)
            ++ ["\n✅ Successfully packaged skill to: " ++ pathStr skill_filename]⟩

/-! ### `check.py` (rust-semver external checker wrapper) -/

/-- `check_cargo_semver()`.  `toolOnPath` is whether
`shutil.which("cargo-semver-checks")` finds the tool, `installOk`
whether `cargo install cargo-semver-checks` succeeds, and `runOutcome`
the outcome of `subprocess.run(["cargo", "semver-checks"],
check=False)`: `.ok rc` when the subprocess ran and reported exit code
`rc`, `.error e` when the invocation raised.  The value returned is the
wrapper's own process exit code (`sys.exit`). -/
def check_cargo_semver (toolOnPath installOk : Bool)
    (runOutcome : Except String Int) : Int :=
  if toolOnPath = false ∧ installOk = false then 1
  else
    match runOutcome with
    | .ok rc => rc
    | .error _ => 1

/-! ### Basic lemmas about the filesystem model -/

theorem lookupPath_cons (xp : Path) (xe : Entry) (rest : List (Path × Entry)) (p : Path) :
    lookupPath ((xp, xe) :: rest) p = if xp = p then some xe else lookupPath rest p := rfl

theorem lookupPath_filter_ne (l : List (Path × Entry)) (p q : Path) (h : q ≠ p) :
    lookupPath (l.filter (fun x => decide (x.1 ≠ p))) q = lookupPath l q := by
  induction l with
  | nil => rfl
  | cons x rest ih =>
    obtain ⟨xp, xe⟩ := x
    by_cases hx : xp = p
    · have hdrop : (fun (x : Path × Entry) => decide (x.1 ≠ p)) (xp, xe) = false := by
        simp [hx]
      have hq : xp ≠ q := by rw [hx]; exact fun hpq => h hpq.symm
      rw [List.filter_cons_of_neg (by simp [hdrop]), ih, lookupPath_cons, if_neg hq]
    · have hkeep : (fun (x : Path × Entry) => decide (x.1 ≠ p)) (xp, xe) = true := by
        simp [hx]
      rw [List.filter_cons_of_pos (by simp [hkeep]), lookupPath_cons, lookupPath_cons, ih]

theorem find_set (fs : FS) (p q : Path) (e : Entry) :
    (fs.set p e).find q = if p = q then some e else fs.find q := by
  by_cases h : p = q
  · simp only [FS.set, FS.find, lookupPath_cons, if_pos h]
  · simp only [FS.set, FS.find, lookupPath_cons, if_neg h]
    exact lookupPath_filter_ne fs.entries p q (fun hq => h hq.symm)

theorem lookupPath_eq_none (l : List (Path × Entry)) (p : Path) :
    lookupPath l p = none ↔ ∀ x ∈ l, x.1 ≠ p := by
  induction l with
  | nil =>
    constructor
    · intro _ x hx; cases hx
    · intro _; rfl
  | cons x rest ih =>
    obtain ⟨xp, xe⟩ := x
    rw [lookupPath_cons]
    by_cases h : xp = p
    · rw [if_pos h]
      constructor
      · intro hc; cases hc
      · intro hall
        exact absurd h (hall (xp, xe) (List.mem_cons_self _ _))
    · rw [if_neg h, ih]
      constructor
      · intro hall y hy
        rcases List.mem_cons.1 hy with rfl | hy'
        · exact h
        · exact hall y hy'
      · intro hall y hy
        exact hall y (List.mem_cons_of_mem _ hy)

theorem lookupPath_of_mem_nodup (l : List (Path × Entry)) (p : Path) (e : Entry)
    (hnd : (l.map Prod.fst).Nodup) (hm : (p, e) ∈ l) :
    lookupPath l p = some e := by
  induction l with
  | nil => cases hm
  | cons x rest ih =>
    obtain ⟨xp, xe⟩ := x
    simp only [List.map_cons, List.nodup_cons] at hnd
    rcases List.mem_cons.1 hm with heq | hmem
    · injection heq with h1 h2
      rw [lookupPath_cons, if_pos h1.symm, h2]
    · have hne : xp ≠ p := by
        intro hxp
        exact hnd.1 (hxp ▸ List.mem_map.2 ⟨(p, e), hmem, rfl⟩)
      rw [lookupPath_cons, if_neg hne]
      exact ih hnd.2 hmem

theorem mem_of_lookupPath (l : List (Path × Entry)) (p : Path) (e : Entry)
    (h : lookupPath l p = some e) : (p, e) ∈ l := by
  induction l with
  | nil => cases h
  | cons x rest ih =>
    obtain ⟨xp, xe⟩ := x
    by_cases hx : xp = p
    · have hxe : some xe = some e := by rw [← h, lookupPath_cons, if_pos hx]
      injection hxe with h2
      rw [← hx, ← h2]
      exact List.mem_cons_self _ _
    · rw [lookupPath_cons, if_neg hx] at h
      exact List.mem_cons_of_mem _ (ih h)

theorem filter_ne_all (l : List (Path × Entry)) (p : Path)
    (h : ∀ x ∈ l, x.1 ≠ p) :
    l.filter (fun x => decide (x.1 ≠ p)) = l := by
  induction l with
  | nil => rfl
  | cons x rest ih =>
    have hx : x.1 ≠ p := h x (List.mem_cons_self _ _)
    rw [List.filter_cons_of_pos (by simp [hx])]
    rw [ih (fun y hy => h y (List.mem_cons_of_mem _ hy))]

theorem filter_ne_of_none (l : List (Path × Entry)) (p : Path)
    (h : lookupPath l p = none) :
    l.filter (fun x => decide (x.1 ≠ p)) = l :=
  filter_ne_all l p ((lookupPath_eq_none l p).1 h)

theorem set_entries_of_none (fs : FS) (p : Path) (e : Entry)
    (h : fs.find p = none) :
    (fs.set p e).entries = (p, e) :: fs.entries := by
  show ((p, e) :: fs.entries.filter (fun x => decide (x.1 ≠ p))) = (p, e) :: fs.entries
  rw [filter_ne_of_none fs.entries p h]

theorem mkdirList_entries (fs : FS) (L : List Path) :
    ∃ D, (mkdirList fs L).entries = D ++ fs.entries ∧ ∀ x ∈ D, x.2 = Entry.dir := by
  induction L generalizing fs with
  | nil => exact ⟨[], rfl, by simp⟩
  | cons a L ih =>
    by_cases h : fs.pathExists a = true
    · have hstep : mkdirList fs (a :: L) = mkdirList fs L := by
        simp [mkdirList, h]
      rw [hstep]; exact ih fs
    · have hnone : fs.find a = none := by
        simp [FS.pathExists, Option.isSome_iff_exists] at h
        cases hfind : fs.find a with
        | none => rfl
        | some e => exact absurd hfind (h e)
      have hstep : mkdirList fs (a :: L) = mkdirList (fs.set a .dir) L := by
        simp [mkdirList, h]
      obtain ⟨D, hD, hdir⟩ := ih (fs.set a .dir)
      refine ⟨D ++ [(a, .dir)], ?_, ?_⟩
      · rw [hstep, hD, set_entries_of_none fs a .dir hnone]
        simp
      · intro x hx
        rcases List.mem_append.1 hx with hx | hx
        · exact hdir x hx
        · simp at hx; rw [hx]

theorem mkdirList_find_not_mem (fs : FS) (L : List Path) (q : Path) (h : q ∉ L) :
    (mkdirList fs L).find q = fs.find q := by
  induction L generalizing fs with
  | nil => rfl
  | cons a L ih =>
    have hqa : q ≠ a := fun e => h (e ▸ List.mem_cons_self a L)
    have hL : q ∉ L := fun m => h (List.mem_cons_of_mem a m)
    by_cases hex : fs.pathExists a = true
    · have hstep : mkdirList fs (a :: L) = mkdirList fs L := by simp [mkdirList, hex]
      rw [hstep]; exact ih fs hL
    · have hstep : mkdirList fs (a :: L) = mkdirList (fs.set a .dir) L := by
        simp [mkdirList, hex]
      rw [hstep, ih _ hL, find_set, if_neg (fun e => hqa e.symm)]

theorem mkdirList_find_mem (fs : FS) (L : List Path) (q : Path)
    (hm : q ∈ L) (hnd : L.Nodup) (h0 : fs.find q = none) :
    (mkdirList fs L).find q = some Entry.dir := by
  induction L generalizing fs with
  | nil => cases hm
  | cons a L ih =>
    rcases List.nodup_cons.1 hnd with ⟨ha, hndL⟩
    rcases List.mem_cons.1 hm with rfl | hmL
    · have hex : ¬ fs.pathExists q = true := by
        simp [FS.pathExists, h0]
      have hstep : mkdirList fs (q :: L) = mkdirList (fs.set q .dir) L := by
        simp [mkdirList, hex]
      rw [hstep, mkdirList_find_not_mem _ _ _ ha, find_set, if_pos rfl]
    · have hqa : q ≠ a := fun e => ha (e ▸ hmL)
      by_cases hex : fs.pathExists a = true
      · have hstep : mkdirList fs (a :: L) = mkdirList fs L := by simp [mkdirList, hex]
        rw [hstep]; exact ih fs hmL hndL h0
      · have hstep : mkdirList fs (a :: L) = mkdirList (fs.set a .dir) L := by
          simp [mkdirList, hex]
        rw [hstep]
        apply ih _ hmL hndL
        rw [find_set, if_neg (fun e => hqa e.symm)]
        exact h0

theorem length_of_mem_pathSegs (p q : Path) (h : q ∈ pathSegs p) :
    q.length ≤ p.length := by
  simp only [pathSegs, List.mem_map, List.mem_range] at h
  obtain ⟨n, hn, rfl⟩ := h
  rw [List.length_take]
  omega

theorem self_mem_pathSegs (p : Path) (hp : p ≠ []) : p ∈ pathSegs p := by
  have hl : 0 < p.length := List.length_pos.2 hp
  simp only [pathSegs, List.mem_map, List.mem_range]
  exact ⟨p.length - 1, by omega, by rw [Nat.sub_add_cancel hl, List.take_length]⟩

theorem pathSegs_nodup (p : Path) : (pathSegs p).Nodup := by
  apply List.Nodup.map_on ?_ (List.nodup_range _)
  intro x hx y hy hxy
  rw [List.mem_range] at hx hy
  have hx1 : (p.take (x + 1)).length = x + 1 := by rw [List.length_take]; omega
  have hy1 : (p.take (y + 1)).length = y + 1 := by rw [List.length_take]; omega
  have hlen := congrArg List.length hxy
  rw [hx1, hy1] at hlen
  omega

theorem mkdirParents_find_self (fs : FS) (p : Path)
    (h0 : fs.find p = none) (hp : p ≠ []) :
    (fs.mkdirParents p).find p = some Entry.dir :=
  mkdirList_find_mem fs (pathSegs p) p (self_mem_pathSegs p hp) (pathSegs_nodup p) h0

theorem mkdirParents_find_longer (fs : FS) (p q : Path) (h : p.length < q.length) :
    (fs.mkdirParents p).find q = fs.find q :=
  mkdirList_find_not_mem fs (pathSegs p) q
    (fun hm => absurd (length_of_mem_pathSegs p q hm) (by omega))

theorem prefOf_iff (r p : Path) : prefOf r p = true ↔ ∃ t, p = r ++ t := by
  induction r generalizing p with
  | nil => simp [prefOf]
  | cons a r ih =>
    cases p with
    | nil =>
      simp only [prefOf, List.cons_append]
      constructor
      · intro h; cases h
      · rintro ⟨t, ht⟩; cases ht
    | cons b s =>
      simp only [prefOf, Bool.and_eq_true, decide_eq_true_eq, ih, List.cons_append]
      constructor
      · rintro ⟨rfl, t, rfl⟩; exact ⟨t, rfl⟩
      · rintro ⟨t, ht⟩
        injection ht with h1 h2
        exact ⟨h1.symm, t, h2⟩

theorem prefOf_refl (p : Path) : prefOf p p = true :=
  (prefOf_iff p p).2 ⟨[], by simp⟩

theorem append_ne_of_ne {l1 l2 : List String} (d : Path) (h : l1 ≠ l2) :
    d ++ l1 ≠ d ++ l2 := by
  induction d with
  | nil => exact h
  | cons a d ih =>
    intro he
    injection he with _ h2
    exact ih h2

theorem append_eq_append_iff_right (d : Path) (l1 l2 : List String) :
    d ++ l1 = d ++ l2 ↔ l1 = l2 := by
  constructor
  · intro h
    by_contra hne
    exact append_ne_of_ne d hne h
  · intro h; rw [h]

theorem filesUnder_entries_append_dirs (fs : FS) (D : List (Path × Entry)) (root : Path)
    (hdir : ∀ x ∈ D, x.2 = Entry.dir) :
    List.filter
      (fun x => prefOf root x.1 && decide (x.1 ≠ root) && x.2.isRegularFile)
      (D ++ fs.entries) = fs.filesUnder root := by
  rw [List.filter_append]
  have hD : List.filter
      (fun x => prefOf root x.1 && decide (x.1 ≠ root) && x.2.isRegularFile) D = [] := by
    rw [List.filter_eq_nil_iff]
    intro x hx
    rw [hdir x hx]
    simp [Entry.isRegularFile]
  rw [hD, List.nil_append, FS.filesUnder]

theorem filesUnder_mkdirParents (fs : FS) (d root : Path) :
    (fs.mkdirParents d).filesUnder root = fs.filesUnder root := by
  obtain ⟨D, hD, hdir⟩ := mkdirList_entries fs (pathSegs d)
  show (mkdirList fs (pathSegs d)).filesUnder root = fs.filesUnder root
  rw [FS.filesUnder, hD]
  exact filesUnder_entries_append_dirs fs D root hdir

theorem dropLast_append_getLastD (p : Path) (hp : p ≠ []) :
    p.dropLast ++ [p.getLastD ""] = p := by
  have h1 : p.getLastD "" = p.getLast hp := by
    rw [List.getLastD_eq_getLast?, List.getLast?_eq_getLast p hp, Option.getD_some]
  rw [h1]
  exact List.dropLast_append_getLast hp

theorem relTo_parent (sp t : Path) (hsp : sp ≠ []) :
    relTo (sp ++ t) sp.dropLast = sp.getLastD "" :: t := by
  have h2 : sp ++ t = sp.dropLast ++ ([sp.getLastD ""] ++ t) := by
    rw [← List.append_assoc, dropLast_append_getLastD sp hsp]
  rw [relTo, h2, List.drop_left]
  rfl

/-- Characterisation of the archive's entry names: `a` is an entry name
exactly when `a` is the skill folder's name followed by the path of a
regular file inside the skill directory, relative to it. -/
theorem mem_zipNames_iff (fs : FS) (sp : Path)
    (hnodup : (fs.entries.map Prod.fst).Nodup) (hsp : sp ≠ []) (a : Path) :
    a ∈ (zipEntriesOf fs sp).map Prod.fst ↔
      ∃ rest, rest ≠ [] ∧ a = sp.getLastD "" :: rest ∧ fs.isFile (sp ++ rest) = true := by
  have hsplit : sp.dropLast ++ [sp.getLastD ""] = sp := dropLast_append_getLastD sp hsp
  constructor
  · intro ha
    rw [zipEntriesOf, List.map_map, List.mem_map] at ha
    obtain ⟨x, hx, hax⟩ := ha
    rw [FS.filesUnder, List.mem_filter] at hx
    obtain ⟨hmem, hpred⟩ := hx
    simp only [Bool.and_eq_true, decide_eq_true_eq] at hpred
    obtain ⟨⟨hpre, hne⟩, hreg⟩ := hpred
    obtain ⟨t, ht⟩ := (prefOf_iff sp x.1).1 hpre
    have htne : t ≠ [] := by
      intro h0
      rw [h0, List.append_nil] at ht
      exact hne ht
    refine ⟨t, htne, ?_, ?_⟩
    · rw [← hax]
      show relTo x.1 sp.dropLast = sp.getLastD "" :: t
      rw [ht]
      exact relTo_parent sp t hsp
    · have hfind : fs.find x.1 = some x.2 :=
        lookupPath_of_mem_nodup fs.entries x.1 x.2 hnodup
          (by rw [show (x.1, x.2) = x from rfl]; exact hmem)
      have hfl : fs.isFile x.1 = true := by
        rw [FS.isFile, hfind]; exact hreg
      rw [← ht]
      exact hfl
  · rintro ⟨rest, hrest, rfl, hfile⟩
    rw [FS.isFile] at hfile
    cases hfind : fs.find (sp ++ rest) with
    | none =>
      rw [hfind] at hfile
      exact absurd hfile (by simp)
    | some e =>
      rw [hfind] at hfile
      have hmem : (sp ++ rest, e) ∈ fs.entries :=
        mem_of_lookupPath fs.entries (sp ++ rest) e hfind
      rw [zipEntriesOf, List.map_map, List.mem_map]
      refine ⟨(sp ++ rest, e), ?_, ?_⟩
      · rw [FS.filesUnder, List.mem_filter]
        refine ⟨hmem, ?_⟩
        simp only [Bool.and_eq_true, decide_eq_true_eq]
        refine ⟨⟨(prefOf_iff sp (sp ++ rest)).2 ⟨rest, rfl⟩, ?_⟩, hfile⟩
        intro h
        have := congrArg List.length h
        rw [List.length_append] at this
        have : rest.length = 0 := by omega
        exact hrest (List.length_eq_zero.1 this)
      · show relTo (sp ++ rest) sp.dropLast = sp.getLastD "" :: rest
        exact relTo_parent sp rest hsp

theorem zipEntriesOf_mkdirParents (fs : FS) (d sp : Path) :
    zipEntriesOf (fs.mkdirParents d) sp = zipEntriesOf fs sp := by
  rw [zipEntriesOf, zipEntriesOf, filesUnder_mkdirParents]

theorem append_cons_ne_self (d : Path) (a : String) (u : List String) :
    (d ++ (a :: u) = d) ↔ False := by
  constructor
  · intro h
    have hlen := congrArg List.length h
    rw [List.length_append, List.length_cons] at hlen
    omega
  · intro h; cases h

theorem init_skill_success_eq (fs : FS) (name : String) (path : Path)
    (failMsg : String)
    (hex : fs.pathExists (path ++ [name]) = false) :
    init_skill fs name path none failMsg =
      ⟨(((((((fs.mkdirParents (path ++ [name])).set
          ((path ++ [name]) ++ ["SKILL.md"])
            (.file (SKILL_TEMPLATE name (title_case_skill_name name)))).set
          ((path ++ [name]) ++ ["scripts"]) .dir).set
          ((path ++ [name]) ++ ["scripts", "example.py"])
            (.file (EXAMPLE_SCRIPT name))).set
          ((path ++ [name]) ++ ["references"]) .dir).set
          ((path ++ [name]) ++ ["references", "api_reference.md"])
            (.file (EXAMPLE_REFERENCE (title_case_skill_name name)))).set
          ((path ++ [name]) ++ ["assets"]) .dir).set
          ((path ++ [name]) ++ ["assets", "example_asset.txt"]) (.file EXAMPLE_ASSET),
        some (path ++ [name]),
        ["✅ Created skill directory: " ++ pathStr (path ++ [name]),
         "✅ Created SKILL.md",
         "✅ Created resource directories with examples",
         "\n✅ Skill '" ++ name ++ "' initialized successfully at "
           ++ pathStr (path ++ [name])]⟩ := by
  simp [init_skill, hex]

theorem find_none_of_under (fs : FS) (d q : Path)
    (hunder : ∀ x ∈ fs.entries, prefOf d x.1 = false)
    (hq : prefOf d q = true) : fs.find q = none := by
  apply (lookupPath_eq_none _ _).2
  intro x hx he
  have h1 := hunder x hx
  rw [he, hq] at h1
  cases h1

theorem pathExists_false_of_under (fs : FS) (d : Path)
    (hunder : ∀ x ∈ fs.entries, prefOf d x.1 = false) :
    fs.pathExists d = false := by
  rw [FS.pathExists, find_none_of_under fs d d hunder (prefOf_refl d)]
  rfl

/-! ### Claim theorems -/

/-- C6: the external checker wrapper exits with exactly the exit code of
the invoked checker whenever the checker is available (already on the
path, or installed on demand) and runs; it exits with code 1 when
installing the absent checker fails, and with code 1 when the checker
invocation raises an unexpected exception. -/
theorem check_cargo_semver_exit (t i : Bool) (rc : Int) (msg : String)
    (h : t = true ∨ i = true) :
    check_cargo_semver t i (.ok rc) = rc ∧
    check_cargo_semver t i (.error msg) = 1 ∧
    check_cargo_semver false false (.ok rc) = 1 := by
  have hcond : ¬ (t = false ∧ i = false) := by
    rcases h with h | h <;> simp [h]
  refine ⟨?_, ?_, ?_⟩
  · simp [check_cargo_semver, hcond]
  · simp [check_cargo_semver, hcond]
  · simp [check_cargo_semver]

theorem check_cargo_semver_exit_witness :
    check_cargo_semver true false (.ok 7) = 7 ∧
    check_cargo_semver true false (.error "cargo exploded") = 1 ∧
    check_cargo_semver false false (.ok 7) = 1 :=
  check_cargo_semver_exit true false 7 "cargo exploded" (Or.inl rfl)

theorem package_skill_result_eq (fs : FS) (validate : FS → Path → Bool × String)
    (sp : Path) (od : Option Path) (cwd : Path) (zf : Option String) :
    (package_skill fs validate sp od cwd zf).result =
      if fs.pathExists sp && fs.isDir sp && (validate fs sp).1 && zf.isNone
      then some ((od.getD cwd) ++ [sp.getLastD "" ++ ".skill"])
      else none := by
  by_cases h1 : fs.pathExists sp = true
  · by_cases h2 : fs.isDir sp = true
    · by_cases h3 : (validate fs sp).1 = true
      · cases zf
        · cases od <;> simp [package_skill, h1, h2, h3]
        · simp [package_skill, h1, h2, h3]
      · simp [package_skill, h1, h2, h3]
    · simp [package_skill, h1, h2]
  · simp [package_skill, h1]

theorem package_skill_isSome_inv (fs : FS) (validate : FS → Path → Bool × String)
    (sp : Path) (od : Option Path) (cwd : Path) (zf : Option String)
    (h : (package_skill fs validate sp od cwd zf).result.isSome = true) :
    fs.pathExists sp = true ∧ fs.isDir sp = true ∧
      (validate fs sp).1 = true ∧ zf = none := by
  rw [package_skill_result_eq] at h
  by_cases hc : (fs.pathExists sp && fs.isDir sp && (validate fs sp).1 && zf.isNone) = true
  · simp only [Bool.and_eq_true] at hc
    refine ⟨hc.1.1.1, hc.1.1.2, hc.1.2, ?_⟩
    cases zf with
    | none => rfl
    | some e => simp [Option.isNone] at hc
  · rw [if_neg hc] at h
    cases h

/-- C5: `package_skill` returns the archive path exactly when packaging
succeeds (folder exists, is a directory, validation passes, the archive
write does not raise), and returns `None` when the folder is missing,
when the path is not a directory, and when the archive write raises. -/
theorem package_skill_result_cases (fs : FS) (validate : FS → Path → Bool × String)
    (sp : Path) (od : Option Path) (cwd : Path) (zf : Option String) :
    (package_skill fs validate sp od cwd zf).result =
      if fs.pathExists sp && fs.isDir sp && (validate fs sp).1 && zf.isNone
      then some ((od.getD cwd) ++ [sp.getLastD "" ++ ".skill"])
      else none :=
  package_skill_result_eq fs validate sp od cwd zf

/-- C2: when the validator reports the skill invalid, `package_skill`
reports the validator's message, performs no archive write (the
filesystem is returned unchanged) and returns `None` — it fails
closed. -/
theorem package_skill_invalid_fails_closed (fs : FS)
    (validate : FS → Path → Bool × String) (sp : Path) (od : Option Path)
    (cwd : Path) (zf : Option String)
    (hex : fs.pathExists sp = true) (hdir : fs.isDir sp = true)
    (hval : (validate fs sp).1 = false) :
    package_skill fs validate sp od cwd zf
      = ⟨fs, none, ["🔍 Validating skill...",
          "❌ Validation failed: " ++ (validate fs sp).2,
          "   Please fix the validation errors before packaging."]⟩ := by
  simp [package_skill, hex, hdir, hval]

theorem package_skill_invalid_fails_closed_witness :
    package_skill ⟨[(["s"], .dir)]⟩ (fun _ _ => (false, "bad skill")) ["s"]
        (some ["out"]) [] none
      = ⟨⟨[(["s"], .dir)]⟩, none,
          ["🔍 Validating skill...",
           "❌ Validation failed: " ++
             ((fun (_ : FS) (_ : Path) => (false, "bad skill")) ⟨[(["s"], .dir)]⟩ ["s"]).2,
           "   Please fix the validation errors before packaging."]⟩ :=
  package_skill_invalid_fails_closed _ _ _ _ _ _ (by decide) (by decide) (by decide)

/-- C10: when validation fails, `package_skill` leaves the filesystem
completely unchanged; in particular an output directory that did not
exist before the call still does not exist after it, because output-dir
resolution and creation happen only after validation succeeds. -/
theorem package_skill_invalid_fs_unchanged (fs : FS)
    (validate : FS → Path → Bool × String) (sp : Path) (od : Option Path)
    (cwd : Path) (zf : Option String)
    (hex : fs.pathExists sp = true) (hdir : fs.isDir sp = true)
    (hval : (validate fs sp).1 = false) :
    (package_skill fs validate sp od cwd zf).fs = fs ∧
    ∀ d : Path, od = some d → fs.pathExists d = false →
      (package_skill fs validate sp od cwd zf).fs.pathExists d = false := by
  have hfs : (package_skill fs validate sp od cwd zf).fs = fs := by
    simp [package_skill, hex, hdir, hval]
  refine ⟨hfs, ?_⟩
  intro d _ hd
  rw [hfs]
  exact hd

theorem package_skill_invalid_fs_unchanged_witness :
    (package_skill ⟨[(["s"], .dir)]⟩ (fun _ _ => (false, "bad skill")) ["s"]
        (some ["out"]) [] none).fs = ⟨[(["s"], .dir)]⟩ ∧
    ∀ d : Path, (some ["out"] : Option Path) = some d →
      FS.pathExists ⟨[(["s"], .dir)]⟩ d = false →
      (package_skill ⟨[(["s"], .dir)]⟩ (fun _ _ => (false, "bad skill")) ["s"]
          (some ["out"]) [] none).fs.pathExists d = false :=
  package_skill_invalid_fs_unchanged _ _ _ _ _ _ (by decide) (by decide) (by decide)

/-- C1: for a skill directory that passes validation, `package_skill`
returns the archive path, and the archive written there has as entry
names exactly the regular files under the skill directory, each stored
relative to the skill directory's parent — so every entry name starts
with the skill folder's own name; moreover, for every input the call
returns a non-`None` path only on success (existing directory, passing
validation, archive write did not raise). -/
theorem package_skill_valid_archive (fs : FS)
    (validate : FS → Path → Bool × String) (sp : Path) (od : Option Path)
    (cwd : Path)
    (hex : fs.pathExists sp = true) (hdir : fs.isDir sp = true)
    (hval : (validate fs sp).1 = true)
    (hnodup : (fs.entries.map Prod.fst).Nodup) (hsp : sp ≠ []) :
    (package_skill fs validate sp od cwd none).result
        = some ((od.getD cwd) ++ [sp.getLastD "" ++ ".skill"]) ∧
    (∃ E, (package_skill fs validate sp od cwd none).fs.find
          ((od.getD cwd) ++ [sp.getLastD "" ++ ".skill"]) = some (.zipFile E) ∧
      ∀ a : Path, a ∈ E.map Prod.fst ↔
        ∃ rest, rest ≠ [] ∧ a = sp.getLastD "" :: rest ∧
          fs.isFile (sp ++ rest) = true) ∧
    (∀ (fs2 : FS) (v2 : FS → Path → Bool × String) (sp2 : Path)
        (od2 : Option Path) (cwd2 : Path) (zf2 : Option String),
      (package_skill fs2 v2 sp2 od2 cwd2 zf2).result.isSome = true →
        fs2.pathExists sp2 = true ∧ fs2.isDir sp2 = true ∧
          (v2 fs2 sp2).1 = true ∧ zf2 = none) := by
  refine ⟨?_, ?_, fun fs2 v2 sp2 od2 cwd2 zf2 h =>
    package_skill_isSome_inv fs2 v2 sp2 od2 cwd2 zf2 h⟩
  · cases od <;> simp [package_skill, hex, hdir, hval]
  · cases od with
    | none =>
      refine ⟨zipEntriesOf fs sp, ?_, mem_zipNames_iff fs sp hnodup hsp⟩
      simp [package_skill, hex, hdir, hval, find_set]
    | some d =>
      refine ⟨zipEntriesOf fs sp, ?_, mem_zipNames_iff fs sp hnodup hsp⟩
      simp [package_skill, hex, hdir, hval, find_set, zipEntriesOf_mkdirParents]

theorem package_skill_valid_archive_witness :
    (package_skill ⟨[(["s"], .dir), (["s", "f.md"], .file "hi")]⟩
        (fun _ _ => (true, "Skill is valid")) ["s"] none [] none).result
        = some (((none : Option Path).getD []) ++ [List.getLastD ["s"] "" ++ ".skill"]) ∧
    (∃ E, (package_skill ⟨[(["s"], .dir), (["s", "f.md"], .file "hi")]⟩
        (fun _ _ => (true, "Skill is valid")) ["s"] none [] none).fs.find
          (((none : Option Path).getD []) ++ [List.getLastD ["s"] "" ++ ".skill"])
        = some (.zipFile E) ∧
      ∀ a : Path, a ∈ E.map Prod.fst ↔
        ∃ rest, rest ≠ [] ∧ a = List.getLastD ["s"] "" :: rest ∧
          FS.isFile ⟨[(["s"], .dir), (["s", "f.md"], .file "hi")]⟩ (["s"] ++ rest) = true) ∧
    (∀ (fs2 : FS) (v2 : FS → Path → Bool × String) (sp2 : Path)
        (od2 : Option Path) (cwd2 : Path) (zf2 : Option String),
      (package_skill fs2 v2 sp2 od2 cwd2 zf2).result.isSome = true →
        fs2.pathExists sp2 = true ∧ fs2.isDir sp2 = true ∧
          (v2 fs2 sp2).1 = true ∧ zf2 = none) :=
  package_skill_valid_archive _ _ _ _ _ (by decide) (by decide) (by decide)
    (by decide) (by decide)

/-- C8: a pre-existing archive file at the target output path is
silently overwritten: packaging a valid skill succeeds and the entry at
the archive path afterwards is the freshly built archive of the current
skill's files only, independent of what was stored there before. -/
theorem package_skill_overwrites (fs : FS)
    (validate : FS → Path → Bool × String) (sp : Path) (od : Option Path)
    (cwd : Path)
    (hex : fs.pathExists sp = true) (hdir : fs.isDir sp = true)
    (hval : (validate fs sp).1 = true)
    (hold : fs.pathExists ((od.getD cwd) ++ [sp.getLastD "" ++ ".skill"]) = true) :
    (package_skill fs validate sp od cwd none).result
        = some ((od.getD cwd) ++ [sp.getLastD "" ++ ".skill"]) ∧
    (package_skill fs validate sp od cwd none).fs.find
        ((od.getD cwd) ++ [sp.getLastD "" ++ ".skill"])
      = some (.zipFile (zipEntriesOf fs sp)) := by
  cases od with
  | none =>
    constructor
    · simp [package_skill, hex, hdir, hval]
    · simp [package_skill, hex, hdir, hval, find_set]
  | some d =>
    constructor
    · simp [package_skill, hex, hdir, hval]
    · simp [package_skill, hex, hdir, hval, find_set, zipEntriesOf_mkdirParents]

theorem package_skill_overwrites_witness :
    (package_skill ⟨[(["s"], .dir), (["s", "f.md"], .file "hi"),
        (["s.skill"], .zipFile [(["old"], "junk")])]⟩
        (fun _ _ => (true, "Skill is valid")) ["s"] none [] none).result
        = some (((none : Option Path).getD []) ++ [List.getLastD ["s"] "" ++ ".skill"]) ∧
    (package_skill ⟨[(["s"], .dir), (["s", "f.md"], .file "hi"),
        (["s.skill"], .zipFile [(["old"], "junk")])]⟩
        (fun _ _ => (true, "Skill is valid")) ["s"] none [] none).fs.find
        (((none : Option Path).getD []) ++ [List.getLastD ["s"] "" ++ ".skill"])
      = some (.zipFile (zipEntriesOf
          ⟨[(["s"], .dir), (["s", "f.md"], .file "hi"),
            (["s.skill"], .zipFile [(["old"], "junk")])]⟩ ["s"])) :=
  package_skill_overwrites _ _ _ _ _ (by decide) (by decide) (by decide) (by decide)

/-- C3: scaffolding a skill name that does not yet exist at the
destination succeeds: `init_skill` returns the new directory, and that
directory contains the description file `SKILL.md` and exactly the three
subdirectories `scripts`, `references` and `assets`, each holding
exactly one file — and nothing else. -/
theorem init_skill_fresh_success (fs : FS) (name : String) (path : Path)
    (failMsg : String)
    (hunder : ∀ x ∈ fs.entries, prefOf (path ++ [name]) x.1 = false) :
    (init_skill fs name path none failMsg).result = some (path ++ [name]) ∧
    (init_skill fs name path none failMsg).fs.find (path ++ [name]) = some .dir ∧
    (init_skill fs name path none failMsg).fs.find ((path ++ [name]) ++ ["SKILL.md"])
      = some (.file (SKILL_TEMPLATE name (title_case_skill_name name))) ∧
    (init_skill fs name path none failMsg).fs.find ((path ++ [name]) ++ ["scripts"])
      = some .dir ∧
    (init_skill fs name path none failMsg).fs.find ((path ++ [name]) ++ ["scripts", "example.py"])
      = some (.file (EXAMPLE_SCRIPT name)) ∧
    (init_skill fs name path none failMsg).fs.find ((path ++ [name]) ++ ["references"])
      = some .dir ∧
    (init_skill fs name path none failMsg).fs.find
        ((path ++ [name]) ++ ["references", "api_reference.md"])
      = some (.file (EXAMPLE_REFERENCE (title_case_skill_name name))) ∧
    (init_skill fs name path none failMsg).fs.find ((path ++ [name]) ++ ["assets"])
      = some .dir ∧
    (init_skill fs name path none failMsg).fs.find
        ((path ++ [name]) ++ ["assets", "example_asset.txt"])
      = some (.file EXAMPLE_ASSET) ∧
    ∀ q : Path, prefOf (path ++ [name]) q = true →
      q ∉ [path ++ [name],
           (path ++ [name]) ++ ["SKILL.md"],
           (path ++ [name]) ++ ["scripts"],
           (path ++ [name]) ++ ["scripts", "example.py"],
           (path ++ [name]) ++ ["references"],
           (path ++ [name]) ++ ["references", "api_reference.md"],
           (path ++ [name]) ++ ["assets"],
           (path ++ [name]) ++ ["assets", "example_asset.txt"]] →
      (init_skill fs name path none failMsg).fs.find q = none := by
  have hex : fs.pathExists (path ++ [name]) = false :=
    pathExists_false_of_under fs (path ++ [name]) hunder
  have hnone : fs.find (path ++ [name]) = none :=
    find_none_of_under fs _ _ hunder (prefOf_refl _)
  have hdne : (path ++ [name]) ≠ [] := by simp
  rw [init_skill_success_eq fs name path failMsg hex]
  refine ⟨rfl, ?_, ?_, ?_, ?_, ?_, ?_, ?_, ?_, ?_⟩
  · simp [find_set, append_cons_ne_self,
      mkdirParents_find_self fs _ hnone hdne]
  · simp [find_set, append_eq_append_iff_right]
  · simp [find_set, append_eq_append_iff_right]
  · simp [find_set, append_eq_append_iff_right]
  · simp [find_set, append_eq_append_iff_right]
  · simp [find_set, append_eq_append_iff_right]
  · simp [find_set, append_eq_append_iff_right]
  · simp [find_set, append_eq_append_iff_right]
  · intro q hq hnot
    obtain ⟨t, rfl⟩ := (prefOf_iff _ q).1 hq
    simp only [List.mem_cons, List.not_mem_nil, or_false, not_or] at hnot
    obtain ⟨h1, h2, h3, h4, h5, h6, h7, h8⟩ := hnot
    have g2 : (["SKILL.md"] : List String) ≠ t := fun he => h2 (by rw [he])
    have g3 : (["scripts"] : List String) ≠ t := fun he => h3 (by rw [he])
    have g4 : (["scripts", "example.py"] : List String) ≠ t := fun he => h4 (by rw [he])
    have g5 : (["references"] : List String) ≠ t := fun he => h5 (by rw [he])
    have g6 : (["references", "api_reference.md"] : List String) ≠ t :=
      fun he => h6 (by rw [he])
    have g7 : (["assets"] : List String) ≠ t := fun he => h7 (by rw [he])
    have g8 : (["assets", "example_asset.txt"] : List String) ≠ t :=
      fun he => h8 (by rw [he])
    have ht : t ≠ [] := by
      rintro rfl
      exact h1 (by simp)
    have hlen : (path ++ [name]).length < ((path ++ [name]) ++ t).length := by
      simp only [List.length_append, List.length_cons, List.length_nil]
      have : 0 < t.length := List.length_pos.2 ht
      omega
    have hmk : (fs.mkdirParents (path ++ [name])).find ((path ++ [name]) ++ t) = none := by
      rw [mkdirParents_find_longer fs _ _ hlen]
      exact find_none_of_under fs _ _ hunder ((prefOf_iff _ _).2 ⟨t, rfl⟩)
    have hmk2 : (fs.mkdirParents (path ++ [name])).find (path ++ name :: t) = none := by
      rw [show path ++ name :: t = (path ++ [name]) ++ t by simp]
      exact hmk
    simp [find_set, append_eq_append_iff_right, g2, g3, g4, g5, g6, g7, g8, hmk, hmk2]

theorem init_skill_fresh_success_witness :
    (init_skill ⟨[]⟩ "my-new-skill" ["skills", "public"] none "disk full").result
      = some (["skills", "public"] ++ ["my-new-skill"]) ∧
    (init_skill ⟨[]⟩ "my-new-skill" ["skills", "public"] none "disk full").fs.find
        (["skills", "public"] ++ ["my-new-skill"]) = some .dir ∧
    (init_skill ⟨[]⟩ "my-new-skill" ["skills", "public"] none "disk full").fs.find
        ((["skills", "public"] ++ ["my-new-skill"]) ++ ["SKILL.md"])
      = some (.file (SKILL_TEMPLATE "my-new-skill" (title_case_skill_name "my-new-skill"))) ∧
    (init_skill ⟨[]⟩ "my-new-skill" ["skills", "public"] none "disk full").fs.find
        ((["skills", "public"] ++ ["my-new-skill"]) ++ ["scripts"]) = some .dir ∧
    (init_skill ⟨[]⟩ "my-new-skill" ["skills", "public"] none "disk full").fs.find
        ((["skills", "public"] ++ ["my-new-skill"]) ++ ["scripts", "example.py"])
      = some (.file (EXAMPLE_SCRIPT "my-new-skill")) ∧
    (init_skill ⟨[]⟩ "my-new-skill" ["skills", "public"] none "disk full").fs.find
        ((["skills", "public"] ++ ["my-new-skill"]) ++ ["references"]) = some .dir ∧
    (init_skill ⟨[]⟩ "my-new-skill" ["skills", "public"] none "disk full").fs.find
        ((["skills", "public"] ++ ["my-new-skill"]) ++ ["references", "api_reference.md"])
      = some (.file (EXAMPLE_REFERENCE (title_case_skill_name "my-new-skill"))) ∧
    (init_skill ⟨[]⟩ "my-new-skill" ["skills", "public"] none "disk full").fs.find
        ((["skills", "public"] ++ ["my-new-skill"]) ++ ["assets"]) = some .dir ∧
    (init_skill ⟨[]⟩ "my-new-skill" ["skills", "public"] none "disk full").fs.find
        ((["skills", "public"] ++ ["my-new-skill"]) ++ ["assets", "example_asset.txt"])
      = some (.file EXAMPLE_ASSET) ∧
    ∀ q : Path, prefOf (["skills", "public"] ++ ["my-new-skill"]) q = true →
      q ∉ [["skills", "public"] ++ ["my-new-skill"],
           (["skills", "public"] ++ ["my-new-skill"]) ++ ["SKILL.md"],
           (["skills", "public"] ++ ["my-new-skill"]) ++ ["scripts"],
           (["skills", "public"] ++ ["my-new-skill"]) ++ ["scripts", "example.py"],
           (["skills", "public"] ++ ["my-new-skill"]) ++ ["references"],
           (["skills", "public"] ++ ["my-new-skill"]) ++ ["references", "api_reference.md"],
           (["skills", "public"] ++ ["my-new-skill"]) ++ ["assets"],
           (["skills", "public"] ++ ["my-new-skill"]) ++ ["assets", "example_asset.txt"]] →
      (init_skill ⟨[]⟩ "my-new-skill" ["skills", "public"] none "disk full").fs.find q = none :=
  init_skill_fresh_success ⟨[]⟩ "my-new-skill" ["skills", "public"] "disk full"
    (by intro x hx; cases hx)

/-- C4: scaffolding a name that already exists at the destination fails:
`init_skill` reports the error, returns `None` (mapped to exit code 1 by
the CLI) and performs no filesystem writes at all — the filesystem is
returned unchanged, whatever the I/O behaviour would have been. -/
theorem init_skill_existing_no_writes (fs : FS) (skill_name : String) (path : Path)
    (failStep : Option Nat) (failMsg : String)
    (hex : fs.pathExists (path ++ [skill_name]) = true) :
    init_skill fs skill_name path failStep failMsg
      = ⟨fs, none, ["❌ Error: Skill directory already exists: "
          ++ pathStr (path ++ [skill_name])]⟩ ∧
    cli_exit (init_skill fs skill_name path failStep failMsg).result = 1 := by
  have h : init_skill fs skill_name path failStep failMsg
      = ⟨fs, none, ["❌ Error: Skill directory already exists: "
          ++ pathStr (path ++ [skill_name])]⟩ := by
    simp [init_skill, hex]
  exact ⟨h, by rw [h]; rfl⟩

theorem init_skill_existing_no_writes_witness :
    (init_skill ⟨[(["skills", "public", "my-skill"], .dir)]⟩ "my-skill"
        ["skills", "public"] none "disk full"
      = ⟨⟨[(["skills", "public", "my-skill"], .dir)]⟩, none,
          ["❌ Error: Skill directory already exists: "
            ++ pathStr (["skills", "public"] ++ ["my-skill"])]⟩) ∧
    cli_exit (init_skill ⟨[(["skills", "public", "my-skill"], .dir)]⟩ "my-skill"
        ["skills", "public"] none "disk full").result = 1 :=
  init_skill_existing_no_writes _ _ _ none _ (by decide)

set_option maxRecDepth 4096 in
/-- C7: the description file written by a successful `init_skill` has as
its title the human-readable capitalisation of the hyphen-separated
skill name: the written content is the template instantiated with
`title_case_skill_name`, whose title line is `# ` followed by that
title; `title_case_skill_name` capitalises each hyphen-separated word
and joins the words by spaces, e.g. `"my-new-skill"` becomes
`"My New Skill"`. -/
theorem init_skill_description_title (fs : FS) (name : String) (path : Path)
    (failMsg : String)
    (hunder : ∀ x ∈ fs.entries, prefOf (path ++ [name]) x.1 = false) :
    (init_skill fs name path none failMsg).fs.find ((path ++ [name]) ++ ["SKILL.md"])
      = some (.file (SKILL_TEMPLATE name (title_case_skill_name name))) ∧
    (∃ pre post : String, SKILL_TEMPLATE name (title_case_skill_name name)
        = pre ++ ("\n# " ++ (title_case_skill_name name ++ ("\n" ++ post)))) ∧
    title_case_skill_name "my-new-skill" = "My New Skill" ∧
    title_case_skill_name "pdf" = "Pdf" := by
  have hex : fs.pathExists (path ++ [name]) = false :=
    pathExists_false_of_under fs (path ++ [name]) hunder
  refine ⟨?_, ?_, by decide, by decide⟩
  · rw [init_skill_success_eq fs name path failMsg hex]
    simp [find_set, append_eq_append_iff_right]
  · refine ⟨"---\nname: " ++ name ++
      "\ndescription: [TODO: Complete and informative explanation of what the skill does and when to use it.]\n---\n",
      "\n## Overview\n[TODO: 1-2 sentences explaining what this skill enables]\n\n## Structuring This Skill\n[TODO: Choose the structure that best fits this skill's purpose. Patterns: Workflow-Based, Task-Based, Reference/Guidelines, Capabilities-Based.]\n\n## Resources\nThis skill includes example resource directories:\n\n### scripts/\nExecutable code for specific operations.\n\n### references/\nDocumentation intended to be loaded into context as needed.\n\n### assets/\nFiles used in the output Claude produces.\n", ?_⟩
    have hm1 :
        ("\ndescription: [TODO: Complete and informative explanation of what the skill does and when to use it.]\n---\n" : String)
          ++ "\n# "
        = "\ndescription: [TODO: Complete and informative explanation of what the skill does and when to use it.]\n---\n\n# " := by
      decide
    have hm2 : ("\n" : String) ++
        "\n## Overview\n[TODO: 1-2 sentences explaining what this skill enables]\n\n## Structuring This Skill\n[TODO: Choose the structure that best fits this skill's purpose. Patterns: Workflow-Based, Task-Based, Reference/Guidelines, Capabilities-Based.]\n\n## Resources\nThis skill includes example resource directories:\n\n### scripts/\nExecutable code for specific operations.\n\n### references/\nDocumentation intended to be loaded into context as needed.\n\n### assets/\nFiles used in the output Claude produces.\n"
        = "\n\n## Overview\n[TODO: 1-2 sentences explaining what this skill enables]\n\n## Structuring This Skill\n[TODO: Choose the structure that best fits this skill's purpose. Patterns: Workflow-Based, Task-Based, Reference/Guidelines, Capabilities-Based.]\n\n## Resources\nThis skill includes example resource directories:\n\n### scripts/\nExecutable code for specific operations.\n\n### references/\nDocumentation intended to be loaded into context as needed.\n\n### assets/\nFiles used in the output Claude produces.\n" := by
      decide
    rw [SKILL_TEMPLATE]
    simp only [String.append_assoc]
    rw [hm2,
      ← String.append_assoc
        "\ndescription: [TODO: Complete and informative explanation of what the skill does and when to use it.]\n---\n",
      hm1]

theorem init_skill_description_title_witness :
    (init_skill ⟨[]⟩ "my-new-skill" ["skills", "public"] none "disk full").fs.find
        ((["skills", "public"] ++ ["my-new-skill"]) ++ ["SKILL.md"])
      = some (.file (SKILL_TEMPLATE "my-new-skill" (title_case_skill_name "my-new-skill"))) ∧
    (∃ pre post : String, SKILL_TEMPLATE "my-new-skill" (title_case_skill_name "my-new-skill")
        = pre ++ ("\n# " ++ (title_case_skill_name "my-new-skill" ++ ("\n" ++ post)))) ∧
    title_case_skill_name "my-new-skill" = "My New Skill" ∧
    title_case_skill_name "pdf" = "Pdf" :=
  init_skill_description_title ⟨[]⟩ "my-new-skill" ["skills", "public"] "disk full"
    (by intro x hx; cases hx)

/-- C9: when a write raises partway through scaffolding (write `k` of
the eight writes, for any `k` from 1 to 7), `init_skill` returns a
failure result (`None`) but every artifact written before the failing
write stays in place: the skill directory itself, and — once their
writes have happened — the description file and the earlier resource
files; nothing is rolled back. -/
theorem init_skill_partial_no_rollback (fs : FS) (name : String) (path : Path)
    (k : Nat) (failMsg : String)
    (hunder : ∀ x ∈ fs.entries, prefOf (path ++ [name]) x.1 = false)
    (hk1 : 1 ≤ k) (hk7 : k ≤ 7) :
    (init_skill fs name path (some k) failMsg).result = none ∧
    (init_skill fs name path (some k) failMsg).fs.find (path ++ [name]) = some .dir ∧
    (2 ≤ k → (init_skill fs name path (some k) failMsg).fs.find
        ((path ++ [name]) ++ ["SKILL.md"])
      = some (.file (SKILL_TEMPLATE name (title_case_skill_name name)))) ∧
    (4 ≤ k → (init_skill fs name path (some k) failMsg).fs.find
        ((path ++ [name]) ++ ["scripts", "example.py"])
      = some (.file (EXAMPLE_SCRIPT name))) ∧
    (6 ≤ k → (init_skill fs name path (some k) failMsg).fs.find
        ((path ++ [name]) ++ ["references", "api_reference.md"])
      = some (.file (EXAMPLE_REFERENCE (title_case_skill_name name)))) ∧
    (k = 1 → (init_skill fs name path (some k) failMsg).out
      = ["✅ Created skill directory: " ++ pathStr (path ++ [name]),
         "❌ Error creating SKILL.md: " ++ failMsg]) ∧
    (2 ≤ k → (init_skill fs name path (some k) failMsg).out
      = ["✅ Created skill directory: " ++ pathStr (path ++ [name]),
         "✅ Created SKILL.md",
         "❌ Error creating resource directories: " ++ failMsg]) := by
  have hex : fs.pathExists (path ++ [name]) = false :=
    pathExists_false_of_under fs (path ++ [name]) hunder
  have hnone : fs.find (path ++ [name]) = none :=
    find_none_of_under fs _ _ hunder (prefOf_refl _)
  have hdne : (path ++ [name]) ≠ [] := by simp
  interval_cases k
  all_goals refine ⟨by simp [init_skill, hex], ?_, ?_, ?_, ?_, ?_, ?_⟩
  all_goals first
    | (intro h; exact absurd h (by omega))
    | simp [init_skill, hex, find_set, append_cons_ne_self,
        mkdirParents_find_self fs _ hnone hdne]

theorem init_skill_partial_no_rollback_witness :
    (init_skill ⟨[]⟩ "my-new-skill" ["skills", "public"] (some 2) "disk full").result = none ∧
    (init_skill ⟨[]⟩ "my-new-skill" ["skills", "public"] (some 2) "disk full").fs.find
        (["skills", "public"] ++ ["my-new-skill"]) = some .dir ∧
    (2 ≤ 2 → (init_skill ⟨[]⟩ "my-new-skill" ["skills", "public"] (some 2) "disk full").fs.find
        ((["skills", "public"] ++ ["my-new-skill"]) ++ ["SKILL.md"])
      = some (.file (SKILL_TEMPLATE "my-new-skill"
          (title_case_skill_name "my-new-skill")))) ∧
    (4 ≤ 2 → (init_skill ⟨[]⟩ "my-new-skill" ["skills", "public"] (some 2) "disk full").fs.find
        ((["skills", "public"] ++ ["my-new-skill"]) ++ ["scripts", "example.py"])
      = some (.file (EXAMPLE_SCRIPT "my-new-skill"))) ∧
    (6 ≤ 2 → (init_skill ⟨[]⟩ "my-new-skill" ["skills", "public"] (some 2) "disk full").fs.find
        ((["skills", "public"] ++ ["my-new-skill"]) ++ ["references", "api_reference.md"])
      = some (.file (EXAMPLE_REFERENCE (title_case_skill_name "my-new-skill")))) ∧
    (2 = 1 → (init_skill ⟨[]⟩ "my-new-skill" ["skills", "public"] (some 2) "disk full").out
      = ["✅ Created skill directory: "
           ++ pathStr (["skills", "public"] ++ ["my-new-skill"]),
         "❌ Error creating SKILL.md: " ++ "disk full"]) ∧
    (2 ≤ 2 → (init_skill ⟨[]⟩ "my-new-skill" ["skills", "public"] (some 2) "disk full").out
      = ["✅ Created skill directory: "
           ++ pathStr (["skills", "public"] ++ ["my-new-skill"]),
         "✅ Created SKILL.md",
         "❌ Error creating resource directories: " ++ "disk full"]) :=
  init_skill_partial_no_rollback ⟨[]⟩ "my-new-skill" ["skills", "public"] 2 "disk full"
    (by intro x hx; cases hx) (by decide) (by decide)

end Skill
